import Mathlib

/-!
Verification development for sf::Shader (include/SFML/Graphics/Shader.hpp).

The repository ships only the class declaration; the member function bodies
live in a translation unit that is not among the sources.  The data model is
therefore taken directly from the header (the member fields m_shaderProgram,
m_currentTexture, m_textures, m_params, and the cache types
std::map<int, const Texture*> and std::map<std::string, int>), while each
operation's behavior is modelled from the specification document, as noted in
its doc comment.  Driver floats are modelled exactly, as rationals.
-/

set_option autoImplicit false

namespace SFMLShader

/-- Shader stage selector, from enum Type in Shader.hpp (Vertex, Fragment). -/
inductive ShaderType where
  | Vertex
  | Fragment
  deriving DecidableEq, Repr

/-- A value written into a uniform slot of the driver: float data (scalars,
vectors, matrices, arrays, colors) or integer data (ints, bools, sampler unit
indices). -/
inductive GLValue where
  | floats : List ℚ → GLValue
  | ints : List Int → GLValue
  deriving DecidableEq, Repr

/-- First-match association-list lookup, used for every map in the model. -/
def findVal {α β : Type} [DecidableEq α] : List (α × β) → α → Option β
  | [], _ => none
  | (k, v) :: rest, k' => if k = k' then some v else findVal rest k'

/-- Color with 8-bit channels, as consumed by the vec4 convenience setter
(sf::Color is external to the header; only its four channels matter here). -/
structure Color where
  r : Nat
  g : Nat
  b : Nat
  a : Nat
  deriving DecidableEq, Repr

/-- 2-component float vector (Shader.hpp typedef Vec2 = Vector2<float>). -/
structure Vec2 where
  x : ℚ
  y : ℚ
  deriving DecidableEq, Repr

/-- 3-component float vector (Shader.hpp typedef Vec3 = Vector3<float>). -/
structure Vec3 where
  x : ℚ
  y : ℚ
  z : ℚ
  deriving DecidableEq, Repr

/-- 4-component float vector (Shader.hpp struct Vector4<float>). -/
structure Vec4 where
  x : ℚ
  y : ℚ
  z : ℚ
  w : ℚ
  deriving DecidableEq, Repr

/-- 3x3 matrix value (Shader.hpp Matrix<3,3>; the pointed-to 9 floats). -/
structure Mat3 where
  elems : List ℚ
  deriving DecidableEq, Repr

/-- 4x4 matrix value (Shader.hpp Matrix<4,4>; the pointed-to 16 floats). -/
structure Mat4 where
  elems : List ℚ
  deriving DecidableEq, Repr

/-- sf::Transform as consumed by setUniformMat4: its 4x4 float matrix. -/
structure Transform where
  matrix : List ℚ
  deriving DecidableEq, Repr

/-- Textures are externally owned; the table stores non-owning references,
modelled as an identity. -/
abbrev Texture := Nat

/-- A readable source stream: it yields its full text, or fails
(sf::InputStream is external; only complete-read success/failure matters). -/
structure InputStream where
  content : Option String

/-- Modelled from the spec: the OpenGL driver, an external single-slot state
machine.  compile+link of given stage sources either fails or yields the
linked program's uniform-location table; program handles are allocated
fresh from a counter.  queryLog records every uniform-location query issued
to the driver (for the once-per-name-per-generation property). -/
structure GLContext where
  available : Bool
  link : Option String → Option String → Option (List (String × Int))
  nextHandle : Nat
  progLocs : List (Nat × List (String × Int))
  activeProgram : Nat
  uniforms : List ((Nat × Int) × GLValue)
  queryLog : List (Nat × String)
  textureUnits : List (Nat × Nat)

/-- Driver primitive: destroy a program object (handle 0 is "no program"). -/
def glDeleteProgram (ctx : GLContext) (h : Nat) : GLContext :=
  if h = 0 then ctx
  else { ctx with progLocs := ctx.progLocs.filter (fun p => decide (p.1 ≠ h)) }

/-- Driver primitive: query a uniform location; -1 when absent. -/
def glGetUniformLocation (ctx : GLContext) (h : Nat) (name : String) : Int :=
  match findVal ctx.progLocs h with
  | none => -1
  | some locs =>
    match findVal locs name with
    | none => -1
    | some loc => loc

/-- Driver primitive: write a value to a uniform location of a program. -/
def glUniform (h : Nat) (loc : Int) (v : GLValue) (ctx : GLContext) : GLContext :=
  { ctx with uniforms := ((h, loc), v) :: ctx.uniforms }

/-- Driver primitive: bind a texture to a texture unit. -/
def glBindTextureUnit (unit tex : Nat) (ctx : GLContext) : GLContext :=
  { ctx with textureUnits := (unit, tex) :: ctx.textureUnits }

/-- Instance state of sf::Shader, from the member data of Shader.hpp:
m_shaderProgram (OpenGL identifier for the program), m_currentTexture
(location of the current texture), m_textures (TextureTable =
std::map<int, const Texture*>, kept as an ascending-key list), m_params
(ParamTable = std::map<std::string, int>, the location cache). -/
structure ShaderState where
  m_shaderProgram : Nat
  m_currentTexture : Int
  m_textures : List (Int × Texture)
  m_params : List (String × Int)
  deriving DecidableEq, Repr

/-- Default constructor: an invalid (unloaded) shader. -/
def Shader.mk0 : ShaderState :=
  { m_shaderProgram := 0, m_currentTexture := -1, m_textures := [], m_params := [] }

/-- getNativeHandle: the underlying OpenGL handle, 0 if not loaded. -/
def getNativeHandle (st : ShaderState) : Nat :=
  st.m_shaderProgram

/-- Modelled from the spec: Shader::compile (the private compile step all load
variants funnel into, its body being outside the sources).  If the platform
lacks shader support the call fails without touching the driver; otherwise
the previous program, if any, is destroyed and the caches reset, a fresh
program is created, compiled and linked; on compile/link failure the fresh
program is destroyed and the instance stays fully unloaded, on success the
new handle is recorded. -/
def compile (vsrc fsrc : Option String) (st : ShaderState) (ctx : GLContext) :
    ShaderState × GLContext × Bool :=
  if ctx.available = false then (st, ctx, false)
  else
    let ctx1 := glDeleteProgram ctx st.m_shaderProgram
    match ctx1.link vsrc fsrc with
    | none => (Shader.mk0, { ctx1 with nextHandle := ctx1.nextHandle + 1 }, false)
    | some locs =>
      let h := ctx1.nextHandle
      ({ Shader.mk0 with m_shaderProgram := h },
       { ctx1 with nextHandle := h + 1, progLocs := (h, locs) :: ctx1.progLocs },
       true)

/-- Modelled from the spec: loadFromFile(filename, type), whose body is outside
the sources.  Source resolution failure is a SourceReadError: the previous
program is destroyed and the instance reverts to the unloaded state. -/
def loadFromFile1 (fs : String → Option String) (filename : String) (ty : ShaderType)
    (st : ShaderState) (ctx : GLContext) : ShaderState × GLContext × Bool :=
  match fs filename with
  | none => (Shader.mk0, glDeleteProgram ctx st.m_shaderProgram, false)
  | some src =>
    match ty with
    | .Vertex => compile (some src) none st ctx
    | .Fragment => compile none (some src) st ctx

/-- Modelled from the spec: loadFromFile(vertexShaderFilename,
fragmentShaderFilename), whose body is outside the sources. -/
def loadFromFile2 (fs : String → Option String) (vfile ffile : String)
    (st : ShaderState) (ctx : GLContext) : ShaderState × GLContext × Bool :=
  match fs vfile with
  | none => (Shader.mk0, glDeleteProgram ctx st.m_shaderProgram, false)
  | some vsrc =>
    match fs ffile with
    | none => (Shader.mk0, glDeleteProgram ctx st.m_shaderProgram, false)
    | some fsrc => compile (some vsrc) (some fsrc) st ctx

/-- Modelled from the spec: loadFromMemory(shader, type), whose body is outside
the sources; an in-memory source always reads successfully. -/
def loadFromMemory1 (src : String) (ty : ShaderType) (st : ShaderState)
    (ctx : GLContext) : ShaderState × GLContext × Bool :=
  match ty with
  | .Vertex => compile (some src) none st ctx
  | .Fragment => compile none (some src) st ctx

/-- Modelled from the spec: loadFromMemory(vertexShader, fragmentShader), whose
body is outside the sources. -/
def loadFromMemory2 (vsrc fsrc : String) (st : ShaderState) (ctx : GLContext) :
    ShaderState × GLContext × Bool :=
  compile (some vsrc) (some fsrc) st ctx

/-- Modelled from the spec: loadFromStream(stream, type), whose body is outside
the sources. -/
def loadFromStream1 (stream : InputStream) (ty : ShaderType) (st : ShaderState)
    (ctx : GLContext) : ShaderState × GLContext × Bool :=
  match stream.content with
  | none => (Shader.mk0, glDeleteProgram ctx st.m_shaderProgram, false)
  | some src =>
    match ty with
    | .Vertex => compile (some src) none st ctx
    | .Fragment => compile none (some src) st ctx

/-- Modelled from the spec: loadFromStream(vertexShaderStream,
fragmentShaderStream), whose body is outside the sources. -/
def loadFromStream2 (vstream fstream : InputStream) (st : ShaderState)
    (ctx : GLContext) : ShaderState × GLContext × Bool :=
  match vstream.content with
  | none => (Shader.mk0, glDeleteProgram ctx st.m_shaderProgram, false)
  | some vsrc =>
    match fstream.content with
    | none => (Shader.mk0, glDeleteProgram ctx st.m_shaderProgram, false)
    | some fsrc => compile (some vsrc) (some fsrc) st ctx

/-- The six load operations of the public interface, labelled by entry point. -/
inductive LoadOp where
  | file1 (filename : String) (ty : ShaderType)
  | file2 (vfile ffile : String)
  | mem1 (src : String) (ty : ShaderType)
  | mem2 (vsrc fsrc : String)
  | stream1 (s : InputStream) (ty : ShaderType)
  | stream2 (vs fstr : InputStream)

/-- Dispatch a load operation to the corresponding entry point. -/
def runLoad (fs : String → Option String) (op : LoadOp) (st : ShaderState)
    (ctx : GLContext) : ShaderState × GLContext × Bool :=
  match op with
  | .file1 filename ty => loadFromFile1 fs filename ty st ctx
  | .file2 vfile ffile => loadFromFile2 fs vfile ffile st ctx
  | .mem1 src ty => loadFromMemory1 src ty st ctx
  | .mem2 vsrc fsrc => loadFromMemory2 vsrc fsrc st ctx
  | .stream1 s ty => loadFromStream1 s ty st ctx
  | .stream2 vs fstr => loadFromStream2 vs fstr st ctx

/-- Modelled from the spec: getParamLocation, whose body is outside the
sources.  Resolve a uniform name through the m_params cache; on a miss query
the driver once and cache the answer, the -1 not-found sentinel included. -/
def getParamLocation (st : ShaderState) (ctx : GLContext) (name : String) :
    Int × ShaderState × GLContext :=
  match findVal st.m_params name with
  | some loc => (loc, st, ctx)
  | none =>
    let loc := glGetUniformLocation ctx st.m_shaderProgram name
    (loc, { st with m_params := (name, loc) :: st.m_params },
     { ctx with queryLog := (st.m_shaderProgram, name) :: ctx.queryLog })

/-- The location a name resolves to in the current program generation. -/
def resolveLoc (st : ShaderState) (ctx : GLContext) (name : String) : Int :=
  (getParamLocation st ctx name).1

/-- Modelled from the spec: setUniformImpl, whose body is outside the sources.
On a loaded instance, make this program the currently-bound one (the bind is
left in place afterwards), resolve the name, and if the location is valid run
the driver-writing function object; an unresolvable name is a silent no-op. -/
def setUniformImpl (st : ShaderState) (ctx : GLContext) (name : String)
    (functor : Int → GLContext → GLContext) : ShaderState × GLContext :=
  if st.m_shaderProgram = 0 then (st, ctx)
  else
    let ctx1 := { ctx with activeProgram := st.m_shaderProgram }
    let r := getParamLocation st ctx1 name
    if r.1 = -1 then (r.2.1, r.2.2) else (r.2.1, functor r.1 r.2.2)

/-- Modelled from the spec: setUniformFloat. -/
def setUniformFloat (st : ShaderState) (ctx : GLContext) (name : String) (x : ℚ) :
    ShaderState × GLContext :=
  setUniformImpl st ctx name (fun loc c => glUniform st.m_shaderProgram loc (.floats [x]) c)

/-- Modelled from the spec: setUniformVec2. -/
def setUniformVec2 (st : ShaderState) (ctx : GLContext) (name : String) (v : Vec2) :
    ShaderState × GLContext :=
  setUniformImpl st ctx name
    (fun loc c => glUniform st.m_shaderProgram loc (.floats [v.x, v.y]) c)

/-- Modelled from the spec: setUniformVec3. -/
def setUniformVec3 (st : ShaderState) (ctx : GLContext) (name : String) (v : Vec3) :
    ShaderState × GLContext :=
  setUniformImpl st ctx name
    (fun loc c => glUniform st.m_shaderProgram loc (.floats [v.x, v.y, v.z]) c)

/-- Modelled from the spec: setUniformVec4. -/
def setUniformVec4 (st : ShaderState) (ctx : GLContext) (name : String) (v : Vec4) :
    ShaderState × GLContext :=
  setUniformImpl st ctx name
    (fun loc c => glUniform st.m_shaderProgram loc (.floats [v.x, v.y, v.z, v.w]) c)

/-- Color-to-vec4 conversion of the setUniformVec4 color overload: each 8-bit
channel is normalized from [0, 255] to [0, 1] by dividing by 255
(Shader.hpp lines 331-335). -/
def colorToVec4 (c : Color) : Vec4 :=
  { x := (c.r : ℚ) / 255, y := (c.g : ℚ) / 255, z := (c.b : ℚ) / 255, w := (c.a : ℚ) / 255 }

/-- Modelled from the spec: setUniformVec4(name, color), the color convenience
overload: normalize then forward as a vec4. -/
def setUniformVec4Color (st : ShaderState) (ctx : GLContext) (name : String)
    (c : Color) : ShaderState × GLContext :=
  setUniformVec4 st ctx name (colorToVec4 c)

/-- Modelled from the spec: setUniformInt. -/
def setUniformInt (st : ShaderState) (ctx : GLContext) (name : String) (x : Int) :
    ShaderState × GLContext :=
  setUniformImpl st ctx name (fun loc c => glUniform st.m_shaderProgram loc (.ints [x]) c)

/-- Modelled from the spec: setUniformBool (booleans travel as 0/1 ints). -/
def setUniformBool (st : ShaderState) (ctx : GLContext) (name : String) (x : Bool) :
    ShaderState × GLContext :=
  setUniformImpl st ctx name
    (fun loc c => glUniform st.m_shaderProgram loc (.ints [if x then 1 else 0]) c)

/-- Modelled from the spec: setUniformMat3. -/
def setUniformMat3 (st : ShaderState) (ctx : GLContext) (name : String) (m : Mat3) :
    ShaderState × GLContext :=
  setUniformImpl st ctx name
    (fun loc c => glUniform st.m_shaderProgram loc (.floats m.elems) c)

/-- Modelled from the spec: setUniformMat4. -/
def setUniformMat4 (st : ShaderState) (ctx : GLContext) (name : String) (m : Mat4) :
    ShaderState × GLContext :=
  setUniformImpl st ctx name
    (fun loc c => glUniform st.m_shaderProgram loc (.floats m.elems) c)

/-- Modelled from the spec: setUniformMat4(name, transform), the sf::Transform
overload: forward the 4x4 matrix contents. -/
def setUniformMat4Transform (st : ShaderState) (ctx : GLContext) (name : String)
    (t : Transform) : ShaderState × GLContext :=
  setUniformImpl st ctx name
    (fun loc c => glUniform st.m_shaderProgram loc (.floats t.matrix) c)

/-- Modelled from the spec: setUniformFloatArray. -/
def setUniformFloatArray (st : ShaderState) (ctx : GLContext) (name : String)
    (xs : List ℚ) : ShaderState × GLContext :=
  setUniformImpl st ctx name (fun loc c => glUniform st.m_shaderProgram loc (.floats xs) c)

/-- Insert into the texture table with std::map<int, const Texture*> semantics:
keys stay strictly ascending and an existing key's entry is overwritten. -/
def tableInsert (loc : Int) (tex : Texture) : List (Int × Texture) → List (Int × Texture)
  | [] => [(loc, tex)]
  | (l, t) :: rest =>
    if loc < l then (loc, tex) :: (l, t) :: rest
    else if loc = l then (loc, tex) :: rest
    else (l, t) :: tableInsert loc tex rest

/-- Modelled from the spec: setUniformSampler2D(name, texture), whose body is
outside the sources.  Resolve the name; if valid, record the
location-to-texture association in the table (no unit is bound now); an
unresolvable name is a silent no-op. -/
def setUniformSampler2D (st : ShaderState) (ctx : GLContext) (name : String)
    (tex : Texture) : ShaderState × GLContext :=
  if st.m_shaderProgram = 0 then (st, ctx)
  else
    let r := getParamLocation st ctx name
    if r.1 = -1 then (r.2.1, r.2.2)
    else ({ r.2.1 with m_textures := tableInsert r.1 tex r.2.1.m_textures }, r.2.2)

/-- Modelled from the spec: setUniformSampler2D(name, CurrentTexture), whose
body is outside the sources.  Record the resolved location (possibly -1) as
the distinguished current-texture location. -/
def setUniformSampler2DCurrent (st : ShaderState) (ctx : GLContext) (name : String) :
    ShaderState × GLContext :=
  if st.m_shaderProgram = 0 then (st, ctx)
  else
    let r := getParamLocation st ctx name
    ({ r.2.1 with m_currentTexture := r.1 }, r.2.2)

/-- Modelled from the spec: static Shader::bind, whose body is outside the
sources.  Set the single process-wide active-program slot to the instance's
handle, or to 0 (no program) when given no instance. -/
def Shader.bind (shader : Option ShaderState) (ctx : GLContext) : GLContext :=
  match shader with
  | some s => { ctx with activeProgram := s.m_shaderProgram }
  | none => { ctx with activeProgram := 0 }

/-- Table walk of bindTextures: the entry at position k gets texture unit
i + k, the referenced texture is bound to that unit and the unit index is
written into the uniform at the recorded location. -/
def bindTexturesAux (h : Nat) : List (Int × Texture) → Nat → GLContext → GLContext
  | [], _, ctx => ctx
  | (loc, tex) :: rest, i, ctx =>
    bindTexturesAux h rest (i + 1)
      (glUniform h loc (.ints [(i : Int)]) (glBindTextureUnit i tex ctx))

/-- Modelled from the spec: bindTextures, whose body is outside the sources.
Iterate the texture table in its (ascending-location) order, assigning the
sequential units 0, 1, 2, ...; if the current-texture location is set and
valid, bind the caller-supplied draw-time texture to the next unit and write
that unit there. -/
def bindTextures (st : ShaderState) (currentTex : Texture) (ctx : GLContext) :
    GLContext :=
  let ctx1 := bindTexturesAux st.m_shaderProgram st.m_textures 0 ctx
  if st.m_currentTexture = -1 then ctx1
  else
    glUniform st.m_shaderProgram st.m_currentTexture
      (.ints [(st.m_textures.length : Int)])
      (glBindTextureUnit st.m_textures.length currentTex ctx1)

/-- Deprecated setParameter(name, float): forwards to setUniformFloat. -/
def setParameterFloat (st : ShaderState) (ctx : GLContext) (name : String) (x : ℚ) :
    ShaderState × GLContext :=
  setUniformFloat st ctx name x

/-- Deprecated setParameter(name, x, y): forwards to setUniformVec2. -/
def setParameterFloat2 (st : ShaderState) (ctx : GLContext) (name : String)
    (x y : ℚ) : ShaderState × GLContext :=
  setUniformVec2 st ctx name { x := x, y := y }

/-- Deprecated setParameter(name, x, y, z): forwards to setUniformVec3. -/
def setParameterFloat3 (st : ShaderState) (ctx : GLContext) (name : String)
    (x y z : ℚ) : ShaderState × GLContext :=
  setUniformVec3 st ctx name { x := x, y := y, z := z }

/-- Deprecated setParameter(name, x, y, z, w): forwards to setUniformVec4. -/
def setParameterFloat4 (st : ShaderState) (ctx : GLContext) (name : String)
    (x y z w : ℚ) : ShaderState × GLContext :=
  setUniformVec4 st ctx name { x := x, y := y, z := z, w := w }

/-- Deprecated setParameter(name, Vector2f): forwards to setUniformVec2. -/
def setParameterVec2 (st : ShaderState) (ctx : GLContext) (name : String) (v : Vec2) :
    ShaderState × GLContext :=
  setUniformVec2 st ctx name v

/-- Deprecated setParameter(name, Vector3f): forwards to setUniformVec3. -/
def setParameterVec3 (st : ShaderState) (ctx : GLContext) (name : String) (v : Vec3) :
    ShaderState × GLContext :=
  setUniformVec3 st ctx name v

/-- Deprecated setParameter(name, Color): forwards to the color overload of
setUniformVec4. -/
def setParameterColor (st : ShaderState) (ctx : GLContext) (name : String)
    (c : Color) : ShaderState × GLContext :=
  setUniformVec4Color st ctx name c

/-- Deprecated setParameter(name, Transform): forwards to the Transform
overload of setUniformMat4. -/
def setParameterTransform (st : ShaderState) (ctx : GLContext) (name : String)
    (t : Transform) : ShaderState × GLContext :=
  setUniformMat4Transform st ctx name t

/-- Deprecated setParameter(name, Texture): forwards to setUniformSampler2D. -/
def setParameterTexture (st : ShaderState) (ctx : GLContext) (name : String)
    (tex : Texture) : ShaderState × GLContext :=
  setUniformSampler2D st ctx name tex

/-- Deprecated setParameter(name, CurrentTexture): forwards to the
CurrentTexture overload of setUniformSampler2D. -/
def setParameterCurrentTexture (st : ShaderState) (ctx : GLContext) (name : String) :
    ShaderState × GLContext :=
  setUniformSampler2DCurrent st ctx name

/-- Functionality of the location cache: m_params is a std::map, so it holds
at most one entry per name (its key list has no duplicates). -/
def ParamsNodup (st : ShaderState) : Prop :=
  (st.m_params.map Prod.fst).Nodup

/-- Ordering invariant of the texture table: m_textures mirrors a
std::map<int, const Texture*>, so its keys are strictly ascending. -/
def TableSorted (t : List (Int × Texture)) : Prop :=
  t.Pairwise (fun p q => p.1 < q.1)

/-- Client operations on a collection of shader instances.  Shader inherits
NonCopyable (Shader.hpp line 51), so there is no copy-construction or
copy-assignment operation here: instances are only created unloaded,
loaded, mutated through setters, bound, or destroyed. -/
inductive Op where
  | create
  | loadMem (i : Nat) (vsrc fsrc : String)
  | destroyOp (i : Nat)
  | setFloat (i : Nat) (name : String) (x : ℚ)
  | setSampler (i : Nat) (name : String) (tex : Texture)
  | setCurrent (i : Nat) (name : String)
  | bindSlot (i : Option Nat)

/-- Process-wide state: the live shader instances (a destroyed slot is none)
and the single shared driver context. -/
structure ProcessState where
  instances : List (Option ShaderState)
  ctx : GLContext

/-- One client operation on the process state. -/
def stepOp (ps : ProcessState) : Op → ProcessState
  | .create => { ps with instances := ps.instances ++ [some Shader.mk0] }
  | .loadMem i v f =>
    match ps.instances[i]? with
    | some (some st) =>
      let r := loadFromMemory2 v f st ps.ctx
      { instances := ps.instances.set i (some r.1), ctx := r.2.1 }
    | _ => ps
  | .destroyOp i =>
    match ps.instances[i]? with
    | some (some st) =>
      { instances := ps.instances.set i none,
        ctx := glDeleteProgram ps.ctx st.m_shaderProgram }
    | _ => ps
  | .setFloat i name x =>
    match ps.instances[i]? with
    | some (some st) =>
      let r := setUniformFloat st ps.ctx name x
      { instances := ps.instances.set i (some r.1), ctx := r.2 }
    | _ => ps
  | .setSampler i name tex =>
    match ps.instances[i]? with
    | some (some st) =>
      let r := setUniformSampler2D st ps.ctx name tex
      { instances := ps.instances.set i (some r.1), ctx := r.2 }
    | _ => ps
  | .setCurrent i name =>
    match ps.instances[i]? with
    | some (some st) =>
      let r := setUniformSampler2DCurrent st ps.ctx name
      { instances := ps.instances.set i (some r.1), ctx := r.2 }
    | _ => ps
  | .bindSlot oi =>
    match oi with
    | none => { ps with ctx := Shader.bind none ps.ctx }
    | some i =>
      match ps.instances[i]? with
      | some (some st) => { ps with ctx := Shader.bind (some st) ps.ctx }
      | _ => ps

/-- Run a sequence of client operations. -/
def runOps (ops : List Op) (ps : ProcessState) : ProcessState :=
  ops.foldl stepOp ps

/-- A fresh process: no instances, a driver with no programs and handle
counter starting at 1 (0 is the no-program sentinel). -/
def initialProcess (link : Option String → Option String → Option (List (String × Int))) :
    ProcessState :=
  { instances := [],
    ctx := { available := true, link := link, nextHandle := 1, progLocs := [],
             activeProgram := 0, uniforms := [], queryLog := [], textureUnits := [] } }

/-- Instance i is live with state s. -/
def InstAt (ps : ProcessState) (i : Nat) (s : ShaderState) : Prop :=
  ps.instances[i]? = some (some s)

/-- Every live instance's non-zero handle is below the driver's allocation
counter (so a freshly allocated handle can never collide with it). -/
def HandleBound (ps : ProcessState) : Prop :=
  ∀ i s, InstAt ps i s → s.m_shaderProgram ≠ 0 →
    s.m_shaderProgram < ps.ctx.nextHandle

/-- No two live instances hold the same non-zero program handle. -/
def HandlesDistinct (ps : ProcessState) : Prop :=
  ∀ i j si sj, InstAt ps i si → InstAt ps j sj → i ≠ j →
    si.m_shaderProgram ≠ 0 → si.m_shaderProgram ≠ sj.m_shaderProgram

/-- Concrete driver link behavior for instantiating theorems: every compile
succeeds and the linked program exposes uniform u at location 0 and tex at
location 1. -/
def testLink : Option String → Option String → Option (List (String × Int)) :=
  fun _ _ => some [("u", 0), ("tex", 1)]

/-- Concrete driver link behavior where every compile or link fails. -/
def failLink : Option String → Option String → Option (List (String × Int)) :=
  fun _ _ => none

/-- Concrete fresh driver context with testLink. -/
def testCtx : GLContext :=
  { available := true, link := testLink, nextHandle := 1, progLocs := [],
    activeProgram := 0, uniforms := [], queryLog := [], textureUnits := [] }

/-- Concrete fresh driver context whose compiles all fail. -/
def failCtx : GLContext :=
  { testCtx with link := failLink }

/-- Concrete loaded shader instance holding program handle 1. -/
def testLoaded : ShaderState :=
  { m_shaderProgram := 1, m_currentTexture := -1, m_textures := [], m_params := [] }

/-- Concrete driver context in which program 1 is linked with uniform u at
location 0 and tex at location 1. -/
def testLoadedCtx : GLContext :=
  { testCtx with nextHandle := 2, progLocs := [(1, [("u", 0), ("tex", 1)])] }

/-- Concrete loaded shader with two sampler table entries (locations 0 and 1)
and current-texture location 2. -/
def testSamplerState : ShaderState :=
  { m_shaderProgram := 1, m_currentTexture := 2,
    m_textures := [(0, 5), (1, 6)], m_params := [] }

theorem findVal_cons_self {α β : Type} [DecidableEq α] (k : α) (v : β) (l : List (α × β)) :
    findVal ((k, v) :: l) k = some v := by
  simp [findVal]

theorem findVal_none_not_mem {α β : Type} [DecidableEq α] {l : List (α × β)} {k : α}
    (h : findVal l k = none) : k ∉ l.map Prod.fst := by
  induction l with
  | nil => simp
  | cons p rest ih =>
    obtain ⟨a, b⟩ := p
    by_cases hak : a = k
    · simp [findVal, hak] at h
    · simp only [findVal, if_neg hak] at h
      simpa [hak, Ne.symm hak] using ih h

theorem findVal_eq_some_of_mem {α β : Type} [DecidableEq α] {l : List (α × β)} {k : α} {v : β}
    (hmem : (k, v) ∈ l) (hnd : (l.map Prod.fst).Nodup) : findVal l k = some v := by
  induction l with
  | nil => simp at hmem
  | cons p rest ih =>
    obtain ⟨a, b⟩ := p
    simp only [List.map_cons, List.nodup_cons] at hnd
    rcases List.mem_cons.mp hmem with h | h
    · injection h with h1 h2
      subst h1
      subst h2
      simp [findVal]
    · have hak : a ≠ k := by
        intro he
        exact hnd.1 (he ▸ (List.mem_map.mpr ⟨(k, v), h, rfl⟩))
      simp only [findVal, if_neg hak]
      exact ih h hnd.2

theorem gpl_state_program (st : ShaderState) (ctx : GLContext) (name : String) :
    ((getParamLocation st ctx name).2.1).m_shaderProgram = st.m_shaderProgram := by
  unfold getParamLocation
  cases h : findVal st.m_params name <;> rfl

theorem gpl_state_textures (st : ShaderState) (ctx : GLContext) (name : String) :
    ((getParamLocation st ctx name).2.1).m_textures = st.m_textures := by
  unfold getParamLocation
  cases h : findVal st.m_params name <;> rfl

theorem gpl_state_current (st : ShaderState) (ctx : GLContext) (name : String) :
    ((getParamLocation st ctx name).2.1).m_currentTexture = st.m_currentTexture := by
  unfold getParamLocation
  cases h : findVal st.m_params name <;> rfl

theorem gpl_ctx_active (st : ShaderState) (ctx : GLContext) (name : String) :
    ((getParamLocation st ctx name).2.2).activeProgram = ctx.activeProgram := by
  unfold getParamLocation
  cases h : findVal st.m_params name <;> rfl

theorem gpl_ctx_uniforms (st : ShaderState) (ctx : GLContext) (name : String) :
    ((getParamLocation st ctx name).2.2).uniforms = ctx.uniforms := by
  unfold getParamLocation
  cases h : findVal st.m_params name <;> rfl

theorem gpl_ctx_units (st : ShaderState) (ctx : GLContext) (name : String) :
    ((getParamLocation st ctx name).2.2).textureUnits = ctx.textureUnits := by
  unfold getParamLocation
  cases h : findVal st.m_params name <;> rfl

theorem gpl_ctx_progLocs (st : ShaderState) (ctx : GLContext) (name : String) :
    ((getParamLocation st ctx name).2.2).progLocs = ctx.progLocs := by
  unfold getParamLocation
  cases h : findVal st.m_params name <;> rfl

theorem gpl_ctx_nextHandle (st : ShaderState) (ctx : GLContext) (name : String) :
    ((getParamLocation st ctx name).2.2).nextHandle = ctx.nextHandle := by
  unfold getParamLocation
  cases h : findVal st.m_params name <;> rfl

theorem gpl_fst_active (st : ShaderState) (ctx : GLContext) (a : Nat) (name : String) :
    (getParamLocation st { ctx with activeProgram := a } name).1 =
      (getParamLocation st ctx name).1 := by
  unfold getParamLocation
  cases h : findVal st.m_params name <;> rfl

theorem resolveLoc_active (st : ShaderState) (ctx : GLContext) (a : Nat) (name : String) :
    resolveLoc st { ctx with activeProgram := a } name = resolveLoc st ctx name :=
  gpl_fst_active st ctx a name

theorem gpl_caches (st : ShaderState) (ctx : GLContext) (name : String) :
    findVal ((getParamLocation st ctx name).2.1).m_params name =
      some ((getParamLocation st ctx name).1) := by
  unfold getParamLocation
  cases h : findVal st.m_params name with
  | none => simp [findVal]
  | some loc => simpa using h

theorem gpl_cached_hit (st : ShaderState) (ctx : GLContext) (name : String) (loc : Int)
    (h : findVal st.m_params name = some loc) :
    getParamLocation st ctx name = (loc, st, ctx) := by
  unfold getParamLocation
  rw [h]

theorem resolveLoc_of_empty (st : ShaderState) (ctx : GLContext) (name : String)
    (h : st.m_params = []) :
    resolveLoc st ctx name = glGetUniformLocation ctx st.m_shaderProgram name := by
  unfold resolveLoc getParamLocation
  rw [h]
  rfl

theorem compile_fail_state (v f : Option String) (st : ShaderState) (ctx : GLContext)
    (hav : ctx.available = true) (hfail : (compile v f st ctx).2.2 = false) :
    (compile v f st ctx).1 = Shader.mk0 := by
  cases hl : (glDeleteProgram ctx st.m_shaderProgram).link v f with
  | none => simp [compile, hav, hl]
  | some locs => simp [compile, hav, hl] at hfail

theorem compile_success_state (v f : Option String) (st : ShaderState) (ctx : GLContext)
    (hsucc : (compile v f st ctx).2.2 = true) :
    (compile v f st ctx).1.m_params = [] ∧
    (compile v f st ctx).1.m_textures = [] ∧
    (compile v f st ctx).1.m_currentTexture = -1 := by
  by_cases hav : ctx.available = false
  · simp [compile, hav] at hsucc
  · cases hl : (glDeleteProgram ctx st.m_shaderProgram).link v f with
    | none => simp [compile, hav, hl] at hsucc
    | some locs => refine ⟨?_, ?_, ?_⟩ <;> simp [compile, hav, hl, Shader.mk0]

theorem runLoad_cases (fs : String → Option String) (op : LoadOp) (st : ShaderState)
    (ctx : GLContext) :
    ((runLoad fs op st ctx).1 = Shader.mk0 ∧ (runLoad fs op st ctx).2.2 = false) ∨
    ∃ v f, runLoad fs op st ctx = compile v f st ctx := by
  cases op with
  | file1 filename ty =>
    cases hfs : fs filename with
    | none => left; constructor <;> simp [runLoad, loadFromFile1, hfs]
    | some src =>
      right
      cases ty with
      | Vertex => exact ⟨some src, none, by simp [runLoad, loadFromFile1, hfs]⟩
      | Fragment => exact ⟨none, some src, by simp [runLoad, loadFromFile1, hfs]⟩
  | file2 vfile ffile =>
    cases hv : fs vfile with
    | none => left; constructor <;> simp [runLoad, loadFromFile2, hv]
    | some vsrc =>
      cases hf : fs ffile with
      | none => left; constructor <;> simp [runLoad, loadFromFile2, hv, hf]
      | some fsrc =>
        right
        exact ⟨some vsrc, some fsrc, by simp [runLoad, loadFromFile2, hv, hf]⟩
  | mem1 src ty =>
    right
    cases ty with
    | Vertex => exact ⟨some src, none, rfl⟩
    | Fragment => exact ⟨none, some src, rfl⟩
  | mem2 v f => right; exact ⟨some v, some f, rfl⟩
  | stream1 s ty =>
    cases hs : s.content with
    | none => left; constructor <;> simp [runLoad, loadFromStream1, hs]
    | some src =>
      right
      cases ty with
      | Vertex => exact ⟨some src, none, by simp [runLoad, loadFromStream1, hs]⟩
      | Fragment => exact ⟨none, some src, by simp [runLoad, loadFromStream1, hs]⟩
  | stream2 vs fstr =>
    cases hv : vs.content with
    | none => left; constructor <;> simp [runLoad, loadFromStream2, hv]
    | some vsrc =>
      cases hf : fstr.content with
      | none => left; constructor <;> simp [runLoad, loadFromStream2, hv, hf]
      | some fsrc =>
        right
        exact ⟨some vsrc, some fsrc, by simp [runLoad, loadFromStream2, hv, hf]⟩

/-- C1: for every load operation (file, memory, or stream) and every prior
state, if the load fails while the platform supports shaders — i.e. for a
source-read, compile, or link failure — the previously held program is gone
and the instance ends fully unloaded, with getNativeHandle returning 0; no
partially-built or stale program survives. -/
theorem load_failure_fully_unloads (fs : String → Option String) (op : LoadOp)
    (st : ShaderState) (ctx : GLContext) (hav : ctx.available = true)
    (hfail : (runLoad fs op st ctx).2.2 = false) :
    (runLoad fs op st ctx).1 = Shader.mk0 ∧
    getNativeHandle (runLoad fs op st ctx).1 = 0 := by
  rcases runLoad_cases fs op st ctx with ⟨h1, _⟩ | ⟨v, f, heq⟩
  · exact ⟨h1, by rw [getNativeHandle, h1]; rfl⟩
  · rw [heq] at hfail ⊢
    have h1 := compile_fail_state v f st ctx hav hfail
    exact ⟨h1, by rw [getNativeHandle, h1]; rfl⟩

theorem load_failure_fully_unloads_witness :
    failCtx.available = true ∧
    (runLoad (fun _ => none) (.mem2 "V" "F") testLoaded failCtx).2.2 = false ∧
    ((runLoad (fun _ => none) (.mem2 "V" "F") testLoaded failCtx).1 = Shader.mk0 ∧
     getNativeHandle (runLoad (fun _ => none) (.mem2 "V" "F") testLoaded failCtx).1 = 0) :=
  ⟨rfl, rfl, load_failure_fully_unloads (fun _ => none) (.mem2 "V" "F") testLoaded failCtx rfl rfl⟩

/-- C6: each deprecated setParameter overload is observationally equivalent to
the typed setUniform counterpart of the same value shape: it produces the
identical instance state and driver state, with no behavioral divergence. -/
theorem setParameter_matches_setUniform :
    (∀ (st : ShaderState) (ctx : GLContext) (name : String) (x : ℚ),
        setParameterFloat st ctx name x = setUniformFloat st ctx name x) ∧
    (∀ (st : ShaderState) (ctx : GLContext) (name : String) (x y : ℚ),
        setParameterFloat2 st ctx name x y =
          setUniformVec2 st ctx name { x := x, y := y }) ∧
    (∀ (st : ShaderState) (ctx : GLContext) (name : String) (x y z : ℚ),
        setParameterFloat3 st ctx name x y z =
          setUniformVec3 st ctx name { x := x, y := y, z := z }) ∧
    (∀ (st : ShaderState) (ctx : GLContext) (name : String) (x y z w : ℚ),
        setParameterFloat4 st ctx name x y z w =
          setUniformVec4 st ctx name { x := x, y := y, z := z, w := w }) ∧
    (∀ (st : ShaderState) (ctx : GLContext) (name : String) (v : Vec2),
        setParameterVec2 st ctx name v = setUniformVec2 st ctx name v) ∧
    (∀ (st : ShaderState) (ctx : GLContext) (name : String) (v : Vec3),
        setParameterVec3 st ctx name v = setUniformVec3 st ctx name v) ∧
    (∀ (st : ShaderState) (ctx : GLContext) (name : String) (c : Color),
        setParameterColor st ctx name c = setUniformVec4Color st ctx name c) ∧
    (∀ (st : ShaderState) (ctx : GLContext) (name : String) (t : Transform),
        setParameterTransform st ctx name t = setUniformMat4Transform st ctx name t) ∧
    (∀ (st : ShaderState) (ctx : GLContext) (name : String) (tex : Texture),
        setParameterTexture st ctx name tex = setUniformSampler2D st ctx name tex) ∧
    (∀ (st : ShaderState) (ctx : GLContext) (name : String),
        setParameterCurrentTexture st ctx name = setUniformSampler2DCurrent st ctx name) := by
  refine ⟨?_, ?_, ?_, ?_, ?_, ?_, ?_, ?_, ?_, ?_⟩ <;> intros <;> rfl

/-- C7: loading the same source text through a file, an in-memory string, or a
stream produces identical results — identical instance state, driver state,
and return value — hence instances observably equivalent in every public
operation; this holds for the single-stage and the two-stage entry points. -/
theorem load_three_forms_equivalent (fs : String → Option String)
    (text vtext ftext file vfile ffile : String) (s vs fstr : InputStream)
    (ty : ShaderType) (st : ShaderState) (ctx : GLContext)
    (hfile : fs file = some text) (hs : s.content = some text)
    (hvf : fs vfile = some vtext) (hff : fs ffile = some ftext)
    (hvs : vs.content = some vtext) (hfstr : fstr.content = some ftext) :
    (loadFromFile1 fs file ty st ctx = loadFromMemory1 text ty st ctx ∧
     loadFromStream1 s ty st ctx = loadFromMemory1 text ty st ctx) ∧
    (loadFromFile2 fs vfile ffile st ctx = loadFromMemory2 vtext ftext st ctx ∧
     loadFromStream2 vs fstr st ctx = loadFromMemory2 vtext ftext st ctx) := by
  refine ⟨⟨?_, ?_⟩, ?_, ?_⟩
  · simp [loadFromFile1, loadFromMemory1, hfile]
  · simp [loadFromStream1, loadFromMemory1, hs]
  · simp [loadFromFile2, loadFromMemory2, hvf, hff]
  · simp [loadFromStream2, loadFromMemory2, hvs, hfstr]

theorem load_three_forms_equivalent_witness :
    ((fun n => if n = "a.vert" then some "V" else if n = "b.frag" then some "F" else none)
        "a.vert" = some "V") ∧
    ((loadFromFile1
        (fun n => if n = "a.vert" then some "V" else if n = "b.frag" then some "F" else none)
        "a.vert" .Vertex Shader.mk0 testCtx =
      loadFromMemory1 "V" .Vertex Shader.mk0 testCtx ∧
      loadFromStream1 ⟨some "V"⟩ .Vertex Shader.mk0 testCtx =
        loadFromMemory1 "V" .Vertex Shader.mk0 testCtx) ∧
     (loadFromFile2
        (fun n => if n = "a.vert" then some "V" else if n = "b.frag" then some "F" else none)
        "a.vert" "b.frag" Shader.mk0 testCtx =
      loadFromMemory2 "V" "F" Shader.mk0 testCtx ∧
      loadFromStream2 ⟨some "V"⟩ ⟨some "F"⟩ Shader.mk0 testCtx =
        loadFromMemory2 "V" "F" Shader.mk0 testCtx)) :=
  ⟨rfl,
   load_three_forms_equivalent
     (fun n => if n = "a.vert" then some "V" else if n = "b.frag" then some "F" else none)
     "V" "V" "F" "a.vert" "a.vert" "b.frag" ⟨some "V"⟩ ⟨some "V"⟩ ⟨some "F"⟩
     .Vertex Shader.mk0 testCtx rfl rfl rfl rfl rfl rfl⟩

theorem gpl_active_comm (st : ShaderState) (ctx : GLContext) (a : Nat) (name : String) :
    getParamLocation st { ctx with activeProgram := a } name =
      ((getParamLocation st ctx name).1, (getParamLocation st ctx name).2.1,
       { (getParamLocation st ctx name).2.2 with activeProgram := a }) := by
  unfold getParamLocation
  cases h : findVal st.m_params name <;> rfl

theorem setUniformImpl_resolved (st : ShaderState) (ctx : GLContext) (name : String)
    (functor : Int → GLContext → GLContext) (hld : st.m_shaderProgram ≠ 0) :
    setUniformImpl st ctx name functor =
      (if resolveLoc st ctx name = -1 then
        ((getParamLocation st ctx name).2.1,
         { (getParamLocation st ctx name).2.2 with activeProgram := st.m_shaderProgram })
      else
        ((getParamLocation st ctx name).2.1,
         functor (resolveLoc st ctx name)
           { (getParamLocation st ctx name).2.2 with activeProgram := st.m_shaderProgram })) := by
  simp only [setUniformImpl, if_neg hld]
  rw [gpl_active_comm]
  rfl

/-- C2: the location cache is invariant-preserving: populating it keeps its
keys duplicate-free, a name therefore maps to at most one cached location in
one program generation, and a successful reload leaves the cache empty, so a
lookup after the reload consults the new program in the driver and never
returns a location cached for the superseded program. -/
theorem uniform_cache_invariant (st st0 : ShaderState) (ctx ctx0 : GLContext)
    (name n2 : String) (fs : String → Option String) (op : LoadOp)
    (hnd : ParamsNodup st)
    (hsucc : (runLoad fs op st0 ctx0).2.2 = true) :
    ParamsNodup ((getParamLocation st ctx name).2.1) ∧
    (∀ l1 l2 : Int, (name, l1) ∈ st.m_params → (name, l2) ∈ st.m_params → l1 = l2) ∧
    (runLoad fs op st0 ctx0).1.m_params = [] ∧
    resolveLoc (runLoad fs op st0 ctx0).1 (runLoad fs op st0 ctx0).2.1 n2 =
      glGetUniformLocation (runLoad fs op st0 ctx0).2.1
        ((runLoad fs op st0 ctx0).1).m_shaderProgram n2 := by
  have hclear : (runLoad fs op st0 ctx0).1.m_params = [] := by
    rcases runLoad_cases fs op st0 ctx0 with ⟨_, hf⟩ | ⟨v, f, heq⟩
    · rw [hf] at hsucc
      exact absurd hsucc (by simp)
    · rw [heq]
      exact (compile_success_state v f st0 ctx0 (heq ▸ hsucc)).1
  refine ⟨?_, ?_, hclear, resolveLoc_of_empty _ _ _ hclear⟩
  · unfold ParamsNodup at hnd ⊢
    unfold getParamLocation
    cases h : findVal st.m_params name with
    | some loc => exact hnd
    | none =>
      simp only [List.map_cons, List.nodup_cons]
      exact ⟨findVal_none_not_mem h, hnd⟩
  · intro l1 l2 h1 h2
    have e1 := findVal_eq_some_of_mem h1 hnd
    have e2 := findVal_eq_some_of_mem h2 hnd
    rw [e1] at e2
    injection e2

theorem uniform_cache_invariant_witness :
    ParamsNodup testLoaded ∧
    (runLoad (fun _ => none) (.mem2 "V" "F") Shader.mk0 testCtx).2.2 = true ∧
    (ParamsNodup ((getParamLocation testLoaded testLoadedCtx "u").2.1) ∧
     (∀ l1 l2 : Int, ("u", l1) ∈ testLoaded.m_params → ("u", l2) ∈ testLoaded.m_params →
        l1 = l2) ∧
     (runLoad (fun _ => none) (.mem2 "V" "F") Shader.mk0 testCtx).1.m_params = [] ∧
     resolveLoc (runLoad (fun _ => none) (.mem2 "V" "F") Shader.mk0 testCtx).1
         (runLoad (fun _ => none) (.mem2 "V" "F") Shader.mk0 testCtx).2.1 "u" =
       glGetUniformLocation (runLoad (fun _ => none) (.mem2 "V" "F") Shader.mk0 testCtx).2.1
         ((runLoad (fun _ => none) (.mem2 "V" "F") Shader.mk0 testCtx).1).m_shaderProgram
         "u") :=
  ⟨by simp [ParamsNodup, testLoaded], rfl,
   uniform_cache_invariant testLoaded Shader.mk0 testLoadedCtx testCtx "u" "u"
     (fun _ => none) (.mem2 "V" "F") (by simp [ParamsNodup, testLoaded]) rfl⟩

/-- C5: the static bind operation maintains the single process-wide
active-program slot of the driver: binding a loaded instance makes its handle
the active program (and a subsequent uniform setter call indeed targets that
instance: it keeps that program active and any uniform it writes is keyed by
that program's handle), while binding no instance clears the slot to 0. -/
theorem bind_single_active_slot (s : ShaderState) (ctx : GLContext) (name : String)
    (x : ℚ) (hld : s.m_shaderProgram ≠ 0) :
    (Shader.bind (some s) ctx).activeProgram = s.m_shaderProgram ∧
    (Shader.bind none ctx).activeProgram = 0 ∧
    (setUniformFloat s (Shader.bind (some s) ctx) name x).2.activeProgram =
      s.m_shaderProgram ∧
    ((setUniformFloat s (Shader.bind (some s) ctx) name x).2.uniforms = ctx.uniforms ∨
     ∃ loc : Int,
       (setUniformFloat s (Shader.bind (some s) ctx) name x).2.uniforms =
         ((s.m_shaderProgram, loc), GLValue.floats [x]) :: ctx.uniforms) := by
  refine ⟨rfl, rfl, ?_, ?_⟩
  · unfold setUniformFloat
    rw [setUniformImpl_resolved _ _ _ _ hld]
    split <;> rfl
  · unfold setUniformFloat
    rw [setUniformImpl_resolved _ _ _ _ hld]
    split
    · exact Or.inl (gpl_ctx_uniforms s (Shader.bind (some s) ctx) name)
    · refine Or.inr ⟨resolveLoc s (Shader.bind (some s) ctx) name, ?_⟩
      show ((s.m_shaderProgram, resolveLoc s (Shader.bind (some s) ctx) name),
          GLValue.floats [x]) ::
          ((getParamLocation s (Shader.bind (some s) ctx) name).2.2).uniforms =
        ((s.m_shaderProgram, resolveLoc s (Shader.bind (some s) ctx) name),
          GLValue.floats [x]) :: ctx.uniforms
      rw [gpl_ctx_uniforms]
      rfl

theorem bind_single_active_slot_witness :
    testLoaded.m_shaderProgram ≠ 0 ∧
    ((Shader.bind (some testLoaded) testLoadedCtx).activeProgram =
       testLoaded.m_shaderProgram ∧
     (Shader.bind none testLoadedCtx).activeProgram = 0 ∧
     (setUniformFloat testLoaded (Shader.bind (some testLoaded) testLoadedCtx) "u"
         2).2.activeProgram = testLoaded.m_shaderProgram ∧
     ((setUniformFloat testLoaded (Shader.bind (some testLoaded) testLoadedCtx) "u"
          2).2.uniforms = testLoadedCtx.uniforms ∨
      ∃ loc : Int,
        (setUniformFloat testLoaded (Shader.bind (some testLoaded) testLoadedCtx) "u"
            2).2.uniforms =
          ((testLoaded.m_shaderProgram, loc), GLValue.floats [2]) ::
            testLoadedCtx.uniforms)) :=
  ⟨by decide,
   bind_single_active_slot testLoaded testLoadedCtx "u" 2 (by decide)⟩

theorem setUniformImpl_cached_noop (st : ShaderState) (ctx : GLContext) (name : String)
    (g : Int → GLContext → GLContext)
    (hcache : findVal st.m_params name = some (-1)) :
    (setUniformImpl st ctx name g).2.queryLog = ctx.queryLog := by
  by_cases h0 : st.m_shaderProgram = 0
  · simp [setUniformImpl, h0]
  · have hh : ∀ c : GLContext, getParamLocation st c name = ((-1 : Int), st, c) :=
      fun c => gpl_cached_hit st c name (-1) hcache
    simp [setUniformImpl, h0, hh]

/-- C3: a setter call whose name does not resolve in the current program is a
silent no-op: the instance's handle, current-texture marker and texture table
are unchanged and the driver's uniform store, texture units, program table
and handle counter are untouched — for every member of the setter family,
since they all route through setUniformImpl, and for the sampler setter —
while the not-found result (-1) is cached, so a repeated call with the same
name issues no further driver location query. -/
theorem unresolvable_setter_silent_noop (st : ShaderState) (ctx : GLContext)
    (name : String) (tex : Texture) (hld : st.m_shaderProgram ≠ 0)
    (hres : resolveLoc st ctx name = -1) :
    (∀ functor : Int → GLContext → GLContext,
       (setUniformImpl st ctx name functor).1.m_shaderProgram = st.m_shaderProgram ∧
       (setUniformImpl st ctx name functor).1.m_currentTexture = st.m_currentTexture ∧
       (setUniformImpl st ctx name functor).1.m_textures = st.m_textures ∧
       (setUniformImpl st ctx name functor).2.uniforms = ctx.uniforms ∧
       (setUniformImpl st ctx name functor).2.textureUnits = ctx.textureUnits ∧
       (setUniformImpl st ctx name functor).2.progLocs = ctx.progLocs ∧
       (setUniformImpl st ctx name functor).2.nextHandle = ctx.nextHandle) ∧
    ((setUniformSampler2D st ctx name tex).1.m_textures = st.m_textures ∧
     (setUniformSampler2D st ctx name tex).2.uniforms = ctx.uniforms) ∧
    (∀ functor g : Int → GLContext → GLContext,
       findVal (setUniformImpl st ctx name functor).1.m_params name = some (-1) ∧
       (setUniformImpl (setUniformImpl st ctx name functor).1
           (setUniformImpl st ctx name functor).2 name g).2.queryLog =
         (setUniformImpl st ctx name functor).2.queryLog) := by
  have hcache : ∀ functor : Int → GLContext → GLContext,
      findVal (setUniformImpl st ctx name functor).1.m_params name = some (-1) := by
    intro functor
    rw [setUniformImpl_resolved _ _ _ _ hld, if_pos hres]
    rw [gpl_caches]
    exact congrArg some hres
  refine ⟨?_, ?_, ?_⟩
  · intro functor
    rw [setUniformImpl_resolved _ _ _ _ hld, if_pos hres]
    exact ⟨gpl_state_program st ctx name, gpl_state_current st ctx name,
      gpl_state_textures st ctx name, gpl_ctx_uniforms st ctx name,
      gpl_ctx_units st ctx name, gpl_ctx_progLocs st ctx name,
      gpl_ctx_nextHandle st ctx name⟩
  · have hres' : (getParamLocation st ctx name).1 = -1 := hres
    constructor
    · simp only [setUniformSampler2D, if_neg hld, if_pos hres']
      exact gpl_state_textures st ctx name
    · simp only [setUniformSampler2D, if_neg hld, if_pos hres']
      exact gpl_ctx_uniforms st ctx name
  · intro functor g
    exact ⟨hcache functor,
      setUniformImpl_cached_noop (setUniformImpl st ctx name functor).1
        (setUniformImpl st ctx name functor).2 name g (hcache functor)⟩

theorem unresolvable_setter_silent_noop_witness :
    testLoaded.m_shaderProgram ≠ 0 ∧
    resolveLoc testLoaded testLoadedCtx "nope" = -1 ∧
    ((setUniformImpl testLoaded testLoadedCtx "nope"
        (fun loc c => glUniform 1 loc (GLValue.floats [2]) c)).1.m_textures =
      testLoaded.m_textures ∧
     (setUniformImpl testLoaded testLoadedCtx "nope"
        (fun loc c => glUniform 1 loc (GLValue.floats [2]) c)).2.uniforms =
      testLoadedCtx.uniforms ∧
     findVal (setUniformImpl testLoaded testLoadedCtx "nope"
        (fun loc c => glUniform 1 loc (GLValue.floats [2]) c)).1.m_params "nope" =
      some (-1)) :=
  ⟨by decide, rfl,
   ((unresolvable_setter_silent_noop testLoaded testLoadedCtx "nope" 7
       (by decide) rfl).1
     (fun loc c => glUniform 1 loc (GLValue.floats [2]) c)).2.2.1,
   ((unresolvable_setter_silent_noop testLoaded testLoadedCtx "nope" 7
       (by decide) rfl).1
     (fun loc c => glUniform 1 loc (GLValue.floats [2]) c)).2.2.2.1,
   (((unresolvable_setter_silent_noop testLoaded testLoadedCtx "nope" 7
       (by decide) rfl).2.2)
     (fun loc c => glUniform 1 loc (GLValue.floats [2]) c)
     (fun loc c => glUniform 1 loc (GLValue.floats [2]) c)).1⟩

/-- C8: the color convenience setter normalizes each 8-bit channel from
[0, 255] to [0, 1] by dividing by 255 before passing the vec4 to the driver;
in particular (255, 128, 0, 255) is observed as (1, 128/255, 0, 1), whose
second component is within 1/1000 of 0.502. -/
theorem color_setter_normalizes (st : ShaderState) (ctx : GLContext) (name : String)
    (c : Color) (hld : st.m_shaderProgram ≠ 0)
    (hres : resolveLoc st ctx name ≠ -1) :
    findVal (setUniformVec4Color st ctx name c).2.uniforms
        (st.m_shaderProgram, resolveLoc st ctx name) =
      some (GLValue.floats [(c.r : ℚ) / 255, (c.g : ℚ) / 255, (c.b : ℚ) / 255,
        (c.a : ℚ) / 255]) ∧
    colorToVec4 { r := 255, g := 128, b := 0, a := 255 } =
      { x := 1, y := 128 / 255, z := 0, w := 1 } ∧
    |(128 : ℚ) / 255 - 502 / 1000| < 1 / 1000 := by
  refine ⟨?_, by norm_num [colorToVec4, Vec4.mk.injEq], by rw [abs_sub_lt_iff]; norm_num⟩
  unfold setUniformVec4Color setUniformVec4
  rw [setUniformImpl_resolved _ _ _ _ hld, if_neg hres]
  simp [glUniform, findVal, colorToVec4]

theorem color_setter_normalizes_witness :
    testLoaded.m_shaderProgram ≠ 0 ∧
    resolveLoc testLoaded testLoadedCtx "u" ≠ -1 ∧
    (findVal (setUniformVec4Color testLoaded testLoadedCtx "u"
          { r := 255, g := 128, b := 0, a := 255 }).2.uniforms
        (testLoaded.m_shaderProgram, resolveLoc testLoaded testLoadedCtx "u") =
      some (GLValue.floats [((255 : Nat) : ℚ) / 255, ((128 : Nat) : ℚ) / 255,
        ((0 : Nat) : ℚ) / 255, ((255 : Nat) : ℚ) / 255]) ∧
     colorToVec4 { r := 255, g := 128, b := 0, a := 255 } =
       { x := 1, y := 128 / 255, z := 0, w := 1 } ∧
     |(128 : ℚ) / 255 - 502 / 1000| < 1 / 1000) :=
  ⟨by decide, by decide,
   color_setter_normalizes testLoaded testLoadedCtx "u"
     { r := 255, g := 128, b := 0, a := 255 } (by decide) (by decide)⟩

theorem mem_tableInsert {loc : Int} {tex : Texture} {l : List (Int × Texture)}
    {q : Int × Texture} (h : q ∈ tableInsert loc tex l) : q = (loc, tex) ∨ q ∈ l := by
  induction l with
  | nil => simpa [tableInsert] using h
  | cons p rest ih =>
    obtain ⟨a, b⟩ := p
    by_cases h1 : loc < a
    · simp only [tableInsert, if_pos h1] at h
      rcases List.mem_cons.mp h with h | h
      · exact Or.inl h
      · exact Or.inr h
    · by_cases h2 : loc = a
      · simp only [tableInsert, if_neg h1, if_pos h2] at h
        rcases List.mem_cons.mp h with h | h
        · exact Or.inl h
        · exact Or.inr (List.mem_cons_of_mem _ h)
      · simp only [tableInsert, if_neg h1, if_neg h2] at h
        rcases List.mem_cons.mp h with h | h
        · exact Or.inr (h ▸ List.mem_cons_self _ _)
        · rcases ih h with h | h
          · exact Or.inl h
          · exact Or.inr (List.mem_cons_of_mem _ h)

theorem tableInsert_sorted (loc : Int) (tex : Texture) (l : List (Int × Texture))
    (hs : TableSorted l) : TableSorted (tableInsert loc tex l) := by
  induction l with
  | nil => simp [tableInsert, TableSorted]
  | cons p rest ih =>
    obtain ⟨a, b⟩ := p
    rw [TableSorted, List.pairwise_cons] at hs
    obtain ⟨ha, hrest⟩ := hs
    by_cases h1 : loc < a
    · rw [TableSorted]
      simp only [tableInsert, if_pos h1]
      refine List.pairwise_cons.mpr ⟨?_, List.pairwise_cons.mpr ⟨ha, hrest⟩⟩
      intro q hq
      rcases List.mem_cons.mp hq with h | h
      · rw [h]; exact h1
      · exact lt_trans h1 (ha q h)
    · by_cases h2 : loc = a
      · rw [TableSorted]
        simp only [tableInsert, if_neg h1, if_pos h2]
        refine List.pairwise_cons.mpr ⟨?_, hrest⟩
        intro q hq
        rw [h2]
        exact ha q hq
      · have h3 : a < loc := lt_of_le_of_ne (not_lt.mp h1) (fun he => h2 he.symm)
        rw [TableSorted]
        simp only [tableInsert, if_neg h1, if_neg h2]
        refine List.pairwise_cons.mpr ⟨?_, ih hrest⟩
        intro q hq
        rcases mem_tableInsert hq with h | h
        · rw [h]; exact h3
        · exact ha q h

theorem findVal_tableInsert (loc : Int) (tex : Texture) (l : List (Int × Texture)) :
    findVal (tableInsert loc tex l) loc = some tex := by
  induction l with
  | nil => simp [tableInsert, findVal]
  | cons p rest ih =>
    obtain ⟨a, b⟩ := p
    by_cases h1 : loc < a
    · simp [tableInsert, if_pos h1, findVal]
    · by_cases h2 : loc = a
      · simp [tableInsert, if_neg h1, if_pos h2, findVal]
      · have hne : a ≠ loc := fun he => h2 he.symm
        simp [tableInsert, if_neg h1, if_neg h2, findVal, hne, ih]

theorem tableInsert_length_mem (loc : Int) (tex : Texture) (l : List (Int × Texture))
    (hs : TableSorted l) (hmem : loc ∈ l.map Prod.fst) :
    (tableInsert loc tex l).length = l.length := by
  induction l with
  | nil => simp at hmem
  | cons p rest ih =>
    obtain ⟨a, b⟩ := p
    rw [TableSorted, List.pairwise_cons] at hs
    obtain ⟨ha, hrest⟩ := hs
    simp only [List.map_cons, List.mem_cons] at hmem
    by_cases h2 : loc = a
    · simp [tableInsert, h2, lt_irrefl]
    · have hmem' : loc ∈ rest.map Prod.fst := by
        rcases hmem with h | h
        · exact absurd h h2
        · exact h
      have h3 : a < loc := by
        obtain ⟨q, hq, he⟩ := List.mem_map.mp hmem'
        rw [← he]
        exact ha q hq
      have h1 : ¬ loc < a := not_lt.mpr (le_of_lt h3)
      simp [tableInsert, if_neg h1, if_neg h2, ih hrest hmem']

/-- C10: the texture table mirrors std::map<int, const Texture*>: insertion
keeps keys strictly ascending, an existing location's entry is overwritten
rather than duplicated (the length does not grow), the lookup at the inserted
location yields the new texture, the iteration order bindTextures walks (the
list order) is strictly ascending location order, and the sampler setter
stores through this insertion at the resolved location. -/
theorem texture_table_ordered_map (t : List (Int × Texture)) (loc : Int) (tex : Texture)
    (st : ShaderState) (ctx : GLContext) (name : String)
    (hs : TableSorted t) (hld : st.m_shaderProgram ≠ 0)
    (hres : resolveLoc st ctx name ≠ -1) :
    TableSorted (tableInsert loc tex t) ∧
    findVal (tableInsert loc tex t) loc = some tex ∧
    (loc ∈ t.map Prod.fst → (tableInsert loc tex t).length = t.length) ∧
    (∀ i j : Fin t.length, i < j → (t.get i).1 < (t.get j).1) ∧
    (setUniformSampler2D st ctx name tex).1.m_textures =
      tableInsert (resolveLoc st ctx name) tex st.m_textures := by
  refine ⟨tableInsert_sorted loc tex t hs, findVal_tableInsert loc tex t,
    tableInsert_length_mem loc tex t hs, ?_, ?_⟩
  · exact fun i j hij => List.pairwise_iff_get.mp hs i j hij
  · have hres' : ¬ (getParamLocation st ctx name).1 = -1 := hres
    simp only [setUniformSampler2D, if_neg hld, if_neg hres']
    rw [gpl_state_textures]
    rfl

theorem texture_table_ordered_map_witness :
    TableSorted [((0 : Int), (5 : Texture))] ∧
    testLoaded.m_shaderProgram ≠ 0 ∧
    resolveLoc testLoaded testLoadedCtx "tex" ≠ -1 ∧
    TableSorted (tableInsert 0 7 [((0 : Int), (5 : Texture))]) ∧
    findVal (tableInsert 0 7 [((0 : Int), (5 : Texture))]) 0 = some 7 ∧
    ((0 : Int) ∈ [((0 : Int), (5 : Texture))].map Prod.fst ∧
     (tableInsert 0 7 [((0 : Int), (5 : Texture))]).length =
       [((0 : Int), (5 : Texture))].length) ∧
    (setUniformSampler2D testLoaded testLoadedCtx "tex" 7).1.m_textures =
      tableInsert (resolveLoc testLoaded testLoadedCtx "tex") 7 testLoaded.m_textures :=
  ⟨by simp [TableSorted], by decide, by decide,
   (texture_table_ordered_map [((0 : Int), (5 : Texture))] 0 7 testLoaded testLoadedCtx
     "tex" (by simp [TableSorted]) (by decide) (by decide)).1,
   (texture_table_ordered_map [((0 : Int), (5 : Texture))] 0 7 testLoaded testLoadedCtx
     "tex" (by simp [TableSorted]) (by decide) (by decide)).2.1,
   ⟨by decide,
    (texture_table_ordered_map [((0 : Int), (5 : Texture))] 0 7 testLoaded testLoadedCtx
      "tex" (by simp [TableSorted]) (by decide) (by decide)).2.2.1 (by decide)⟩,
   (texture_table_ordered_map [((0 : Int), (5 : Texture))] 0 7 testLoaded testLoadedCtx
     "tex" (by simp [TableSorted]) (by decide) (by decide)).2.2.2.2⟩

theorem bindTexturesAux_units_lt (h : Nat) (l : List (Int × Texture)) (i u : Nat)
    (ctx : GLContext) (hu : u < i) :
    findVal (bindTexturesAux h l i ctx).textureUnits u = findVal ctx.textureUnits u := by
  induction l generalizing i ctx with
  | nil => rfl
  | cons p rest ih =>
    obtain ⟨loc, tex⟩ := p
    rw [bindTexturesAux, ih (i + 1) _ (Nat.lt_succ_of_lt hu)]
    have hne : i ≠ u := Nat.ne_of_gt hu
    simp [glUniform, glBindTextureUnit, findVal, hne]

theorem bindTexturesAux_uniforms_frame (h h2 : Nat) (l : List (Int × Texture)) (i : Nat)
    (ctx : GLContext) (loc : Int) (hnm : loc ∉ l.map Prod.fst) :
    findVal (bindTexturesAux h l i ctx).uniforms (h2, loc) =
      findVal ctx.uniforms (h2, loc) := by
  induction l generalizing i ctx with
  | nil => rfl
  | cons p rest ih =>
    obtain ⟨lk, tex⟩ := p
    simp only [List.map_cons, List.mem_cons, not_or] at hnm
    rw [bindTexturesAux, ih _ _ hnm.2]
    have hne : (h, lk) ≠ (h2, loc) := by
      intro he
      injection he with e1 e2
      exact hnm.1 e2.symm
    simp [glUniform, glBindTextureUnit, findVal, hne]

theorem bindTexturesAux_entry (h : Nat) (l : List (Int × Texture)) (i : Nat)
    (ctx : GLContext) (hs : TableSorted l) (k : Nat) (hk : k < l.length) :
    findVal (bindTexturesAux h l i ctx).textureUnits (i + k) =
      some (l.get ⟨k, hk⟩).2 ∧
    findVal (bindTexturesAux h l i ctx).uniforms (h, (l.get ⟨k, hk⟩).1) =
      some (GLValue.ints [((i + k : Nat) : Int)]) := by
  induction l generalizing i ctx k with
  | nil => exact absurd hk (by simp)
  | cons p rest ih =>
    obtain ⟨lk, tex⟩ := p
    rw [TableSorted, List.pairwise_cons] at hs
    obtain ⟨hhead, htail⟩ := hs
    cases k with
    | zero =>
      constructor
      · show findVal (bindTexturesAux h rest (i + 1)
            (glUniform h lk (.ints [(i : Int)]) (glBindTextureUnit i tex ctx))).textureUnits
            i = some tex
        rw [bindTexturesAux_units_lt h rest (i + 1) i _ (Nat.lt_succ_self i)]
        simp [glUniform, glBindTextureUnit, findVal]
      · have hnm : lk ∉ rest.map Prod.fst := by
          intro hmem
          obtain ⟨q, hq, he⟩ := List.mem_map.mp hmem
          exact absurd (hhead q hq) (by rw [he]; exact lt_irrefl _)
        show findVal (bindTexturesAux h rest (i + 1)
            (glUniform h lk (.ints [(i : Int)]) (glBindTextureUnit i tex ctx))).uniforms
            (h, lk) = some (GLValue.ints [(i : Int)])
        rw [bindTexturesAux_uniforms_frame h h rest (i + 1) _ lk hnm]
        simp [glUniform, glBindTextureUnit, findVal]
    | succ m =>
      have hm : m < rest.length := by simpa using hk
      have e : i + (m + 1) = (i + 1) + m := by omega
      have := ih (i + 1)
        (glUniform h lk (.ints [(i : Int)]) (glBindTextureUnit i tex ctx)) htail m hm
      rw [bindTexturesAux, e]
      exact this

/-- C4: bindTextures assigns texture units deterministically: the table's
entries receive the contiguous units 0, 1, 2, ... in table order, each
referenced texture is bound to its unit and the unit index is written into
the uniform at the recorded location; when the current-texture location is
set and valid, it receives the next unit after the table entries with the
caller-supplied draw-time texture; and the resulting assignment is the same
for every starting driver state, so repeating the operation with no
intervening setter calls yields the same assignment. -/
theorem bindTextures_deterministic_assignment (st : ShaderState) (currentTex : Texture)
    (hs : TableSorted st.m_textures)
    (hdisj : ∀ q ∈ st.m_textures, q.1 ≠ st.m_currentTexture) :
    (∀ (ctx : GLContext) (k : Nat) (hk : k < st.m_textures.length),
       findVal (bindTextures st currentTex ctx).textureUnits k =
         some (st.m_textures.get ⟨k, hk⟩).2 ∧
       findVal (bindTextures st currentTex ctx).uniforms
           (st.m_shaderProgram, (st.m_textures.get ⟨k, hk⟩).1) =
         some (GLValue.ints [(k : Int)])) ∧
    (∀ ctx : GLContext, st.m_currentTexture ≠ -1 →
       findVal (bindTextures st currentTex ctx).textureUnits st.m_textures.length =
         some currentTex ∧
       findVal (bindTextures st currentTex ctx).uniforms
           (st.m_shaderProgram, st.m_currentTexture) =
         some (GLValue.ints [(st.m_textures.length : Int)])) ∧
    (∀ ctx1 ctx2 : GLContext, ∀ k : Nat, k < st.m_textures.length →
       findVal (bindTextures st currentTex ctx1).textureUnits k =
         findVal (bindTextures st currentTex ctx2).textureUnits k) := by
  have main : ∀ (ctx : GLContext) (k : Nat) (hk : k < st.m_textures.length),
      findVal (bindTextures st currentTex ctx).textureUnits k =
        some (st.m_textures.get ⟨k, hk⟩).2 ∧
      findVal (bindTextures st currentTex ctx).uniforms
          (st.m_shaderProgram, (st.m_textures.get ⟨k, hk⟩).1) =
        some (GLValue.ints [(k : Int)]) := by
    intro ctx k hk
    have base := bindTexturesAux_entry st.m_shaderProgram st.m_textures 0 ctx hs k hk
    rw [Nat.zero_add] at base
    unfold bindTextures
    by_cases hcur : st.m_currentTexture = -1
    · rw [if_pos hcur]
      exact base
    · rw [if_neg hcur]
      constructor
      · have hkn : st.m_textures.length ≠ k := Nat.ne_of_gt hk
        show findVal ((st.m_textures.length, currentTex) ::
            (bindTexturesAux st.m_shaderProgram st.m_textures 0 ctx).textureUnits) k =
          some (st.m_textures.get ⟨k, hk⟩).2
        rw [findVal, if_neg hkn]
        exact base.1
      · have hne : ((st.m_shaderProgram, st.m_currentTexture) : Nat × Int) ≠
            (st.m_shaderProgram, (st.m_textures.get ⟨k, hk⟩).1) := by
          intro he
          injection he with e1 e2
          exact hdisj (st.m_textures.get ⟨k, hk⟩) (st.m_textures.get_mem _ _) e2.symm
        show findVal (((st.m_shaderProgram, st.m_currentTexture),
            GLValue.ints [(st.m_textures.length : Int)]) ::
            (bindTexturesAux st.m_shaderProgram st.m_textures 0 ctx).uniforms)
            (st.m_shaderProgram, (st.m_textures.get ⟨k, hk⟩).1) =
          some (GLValue.ints [(k : Int)])
        rw [findVal, if_neg hne]
        exact base.2
  refine ⟨main, ?_, fun ctx1 ctx2 k hk => by rw [(main ctx1 k hk).1, (main ctx2 k hk).1]⟩
  intro ctx hcur
  unfold bindTextures
  rw [if_neg hcur]
  constructor
  · simp [glUniform, glBindTextureUnit, findVal]
  · simp [glUniform, glBindTextureUnit, findVal]

theorem bindTextures_deterministic_assignment_witness :
    TableSorted testSamplerState.m_textures ∧
    (∀ q ∈ testSamplerState.m_textures, q.1 ≠ testSamplerState.m_currentTexture) ∧
    (0 : Nat) < testSamplerState.m_textures.length ∧
    testSamplerState.m_currentTexture ≠ -1 ∧
    findVal (bindTextures testSamplerState 9 testCtx).textureUnits 0 = some 5 ∧
    findVal (bindTextures testSamplerState 9 testCtx).textureUnits
        testSamplerState.m_textures.length = some 9 ∧
    findVal (bindTextures testSamplerState 9 testCtx).uniforms
        (testSamplerState.m_shaderProgram, testSamplerState.m_currentTexture) =
      some (GLValue.ints [(testSamplerState.m_textures.length : Int)]) ∧
    findVal (bindTextures testSamplerState 9 testCtx).textureUnits 0 =
      findVal (bindTextures testSamplerState 9 failCtx).textureUnits 0 :=
  ⟨by simp [TableSorted, testSamplerState], by decide, by decide, by decide,
   ((bindTextures_deterministic_assignment testSamplerState 9
       (by simp [TableSorted, testSamplerState]) (by decide)).1 testCtx 0 (by decide)).1,
   ((bindTextures_deterministic_assignment testSamplerState 9
       (by simp [TableSorted, testSamplerState]) (by decide)).2.1 testCtx (by decide)).1,
   ((bindTextures_deterministic_assignment testSamplerState 9
       (by simp [TableSorted, testSamplerState]) (by decide)).2.1 testCtx (by decide)).2,
   (bindTextures_deterministic_assignment testSamplerState 9
       (by simp [TableSorted, testSamplerState]) (by decide)).2.2 testCtx failCtx 0
     (by decide)⟩

theorem glDeleteProgram_nextHandle_eq (ctx : GLContext) (h : Nat) :
    (glDeleteProgram ctx h).nextHandle = ctx.nextHandle := by
  unfold glDeleteProgram
  split <;> rfl

theorem bind_nextHandle_eq (o : Option ShaderState) (ctx : GLContext) :
    (Shader.bind o ctx).nextHandle = ctx.nextHandle := by
  cases o <;> rfl

theorem setUniformImpl_handle (st : ShaderState) (ctx : GLContext) (name : String)
    (functor : Int → GLContext → GLContext) :
    (setUniformImpl st ctx name functor).1.m_shaderProgram = st.m_shaderProgram := by
  by_cases h0 : st.m_shaderProgram = 0
  · simp [setUniformImpl, h0]
  · rw [setUniformImpl_resolved _ _ _ _ h0]
    split
    · exact gpl_state_program st ctx name
    · exact gpl_state_program st ctx name

theorem setUniformFloat_nextHandle (st : ShaderState) (ctx : GLContext) (name : String)
    (x : ℚ) : (setUniformFloat st ctx name x).2.nextHandle = ctx.nextHandle := by
  unfold setUniformFloat
  by_cases h0 : st.m_shaderProgram = 0
  · simp [setUniformImpl, h0]
  · rw [setUniformImpl_resolved _ _ _ _ h0]
    split
    · exact gpl_ctx_nextHandle st ctx name
    · exact gpl_ctx_nextHandle st ctx name

theorem setSampler_handle (st : ShaderState) (ctx : GLContext) (name : String)
    (tex : Texture) :
    (setUniformSampler2D st ctx name tex).1.m_shaderProgram = st.m_shaderProgram := by
  by_cases h0 : st.m_shaderProgram = 0
  · simp [setUniformSampler2D, h0]
  · simp only [setUniformSampler2D, if_neg h0]
    split
    · exact gpl_state_program st ctx name
    · exact gpl_state_program st ctx name

theorem setSampler_nextHandle (st : ShaderState) (ctx : GLContext) (name : String)
    (tex : Texture) :
    (setUniformSampler2D st ctx name tex).2.nextHandle = ctx.nextHandle := by
  by_cases h0 : st.m_shaderProgram = 0
  · simp [setUniformSampler2D, h0]
  · simp only [setUniformSampler2D, if_neg h0]
    split
    · exact gpl_ctx_nextHandle st ctx name
    · exact gpl_ctx_nextHandle st ctx name

theorem setCurrent_handle (st : ShaderState) (ctx : GLContext) (name : String) :
    (setUniformSampler2DCurrent st ctx name).1.m_shaderProgram = st.m_shaderProgram := by
  by_cases h0 : st.m_shaderProgram = 0
  · simp [setUniformSampler2DCurrent, h0]
  · simp only [setUniformSampler2DCurrent, if_neg h0]
    exact gpl_state_program st ctx name

theorem setCurrent_nextHandle (st : ShaderState) (ctx : GLContext) (name : String) :
    (setUniformSampler2DCurrent st ctx name).2.nextHandle = ctx.nextHandle := by
  by_cases h0 : st.m_shaderProgram = 0
  · simp [setUniformSampler2DCurrent, h0]
  · simp only [setUniformSampler2DCurrent, if_neg h0]
    exact gpl_ctx_nextHandle st ctx name

theorem compile_handle_cases (v f : Option String) (st : ShaderState) (ctx : GLContext) :
    ((compile v f st ctx).1 = st ∧ (compile v f st ctx).2.1 = ctx) ∨
    ((compile v f st ctx).1.m_shaderProgram = 0 ∧
     (compile v f st ctx).2.1.nextHandle = ctx.nextHandle + 1) ∨
    ((compile v f st ctx).1.m_shaderProgram = ctx.nextHandle ∧
     (compile v f st ctx).2.1.nextHandle = ctx.nextHandle + 1) := by
  by_cases hav : ctx.available = false
  · left
    constructor <;> simp [compile, hav]
  · cases hl : (glDeleteProgram ctx st.m_shaderProgram).link v f with
    | none =>
      right; left
      constructor <;>
        simp [compile, hav, hl, Shader.mk0, glDeleteProgram_nextHandle_eq]
    | some locs =>
      right; right
      constructor <;>
        simp [compile, hav, hl, Shader.mk0, glDeleteProgram_nextHandle_eq]

theorem instAt_set_cases {l : List (Option ShaderState)} {i j : Nat}
    {o : Option ShaderState} {s : ShaderState}
    (h : (l.set i o)[j]? = some (some s)) :
    (i = j ∧ o = some s) ∨ (i ≠ j ∧ l[j]? = some (some s)) := by
  by_cases hij : i = j
  · subst hij
    rw [List.getElem?_set] at h
    by_cases hlen : i < l.length
    · rw [if_pos rfl, if_pos hlen] at h
      injection h with h
      exact Or.inl ⟨rfl, h⟩
    · rw [if_pos rfl, if_neg hlen] at h
      cases h
  · rw [List.getElem?_set_ne hij] at h
    exact Or.inr ⟨hij, h⟩

theorem instAt_append_new {l : List (Option ShaderState)} {i : Nat} {s : ShaderState}
    (h : (l ++ [some Shader.mk0])[i]? = some (some s)) :
    l[i]? = some (some s) ∨ s = Shader.mk0 := by
  by_cases hlen : i < l.length
  · rw [List.getElem?_append_left hlen] at h
    exact Or.inl h
  · right
    rw [List.getElem?_append_right (Nat.le_of_not_lt hlen)] at h
    cases hd : i - l.length with
    | zero =>
      rw [hd] at h
      simp at h
      exact h.symm
    | succ n =>
      rw [hd] at h
      simp at h

theorem inv_set_same_handle (ps : ProcessState) (i : Nat) (st newSt : ShaderState)
    (ctx' : GLContext) (hb : HandleBound ps) (hd : HandlesDistinct ps)
    (hi : ps.instances[i]? = some (some st))
    (hh : newSt.m_shaderProgram = st.m_shaderProgram)
    (hn : ctx'.nextHandle = ps.ctx.nextHandle) :
    HandleBound ⟨ps.instances.set i (some newSt), ctx'⟩ ∧
    HandlesDistinct ⟨ps.instances.set i (some newSt), ctx'⟩ := by
  constructor
  · intro j s hj hz
    rcases instAt_set_cases hj with ⟨he, ho⟩ | ⟨hne, ho⟩
    · injection ho with ho
      show s.m_shaderProgram < ctx'.nextHandle
      rw [hn, ← ho, hh]
      exact hb i st hi (by rw [← hh, ho]; exact hz)
    · show s.m_shaderProgram < ctx'.nextHandle
      rw [hn]
      exact hb j s ho hz
  · intro j k sj sk hj hk hjk hz
    rcases instAt_set_cases hj with ⟨hej, hoj⟩ | ⟨hnej, hoj⟩ <;>
      rcases instAt_set_cases hk with ⟨hek, hok⟩ | ⟨hnek, hok⟩
    · exact absurd (hej.symm.trans hek) hjk
    · injection hoj with hoj
      have hij : i ≠ k := by rw [hej]; exact hjk
      have : sj.m_shaderProgram = st.m_shaderProgram := by rw [← hoj, hh]
      rw [this]
      rw [this] at hz
      exact hd i k st sk hi hok hij hz
    · injection hok with hok
      have hij : j ≠ i := fun he => hjk (he.trans hek)
      have hsk : sk.m_shaderProgram = st.m_shaderProgram := by rw [← hok, hh]
      rw [hsk]
      intro he
      exact hd i j st sj hi hoj (fun hh2 => hij hh2.symm) (by rw [← he]; exact hz) he.symm
    · exact hd j k sj sk hoj hok hjk hz

theorem stepOp_preserves (ps : ProcessState) (op : Op)
    (hb : HandleBound ps) (hd : HandlesDistinct ps) :
    HandleBound (stepOp ps op) ∧ HandlesDistinct (stepOp ps op) := by
  cases op with
  | create =>
    constructor
    · intro j s hj hz
      rcases instAt_append_new hj with ho | ho
      · exact hb j s ho hz
      · rw [ho] at hz
        exact absurd rfl hz
    · intro j k sj sk hj hk hjk hz
      rcases instAt_append_new hj with hoj | hoj
      · rcases instAt_append_new hk with hok | hok
        · exact hd j k sj sk hoj hok hjk hz
        · rw [hok]
          exact fun he => hz (he.trans rfl)
      · rw [hoj] at hz
        exact absurd rfl hz
  | loadMem i v f =>
    rcases hmi : ps.instances[i]? with _ | ⟨_ | st⟩
    · have he : stepOp ps (.loadMem i v f) = ps := by simp [stepOp, hmi]
      rw [he]; exact ⟨hb, hd⟩
    · have he : stepOp ps (.loadMem i v f) = ps := by simp [stepOp, hmi]
      rw [he]; exact ⟨hb, hd⟩
    · have he : stepOp ps (.loadMem i v f) =
          { instances := ps.instances.set i (some (compile (some v) (some f) st ps.ctx).1),
            ctx := (compile (some v) (some f) st ps.ctx).2.1 } := by
        simp [stepOp, hmi, loadFromMemory2]
      rw [he]
      rcases compile_handle_cases (some v) (some f) st ps.ctx with
        ⟨h1, h2⟩ | ⟨h1, h2⟩ | ⟨h1, h2⟩
      · exact inv_set_same_handle ps i st _ _ hb hd hmi (by rw [h1]) (by rw [h2])
      · constructor
        · intro j s hj hz
          rcases instAt_set_cases hj with ⟨hej, ho⟩ | ⟨hne, ho⟩
          · injection ho with ho
            exact absurd (ho ▸ h1) hz
          · show s.m_shaderProgram < (compile (some v) (some f) st ps.ctx).2.1.nextHandle
            rw [h2]
            exact Nat.lt_succ_of_lt (hb j s ho hz)
        · intro j k sj sk hj hk hjk hz
          rcases instAt_set_cases hj with ⟨hej, hoj⟩ | ⟨hnej, hoj⟩ <;>
            rcases instAt_set_cases hk with ⟨hek, hok⟩ | ⟨hnek, hok⟩
          · exact absurd (hej.symm.trans hek) hjk
          · injection hoj with hoj
            exact absurd (hoj ▸ h1) hz
          · injection hok with hok
            rw [← hok, h1]
            exact hz
          · exact hd j k sj sk hoj hok hjk hz
      · constructor
        · intro j s hj hz
          rcases instAt_set_cases hj with ⟨hej, ho⟩ | ⟨hne, ho⟩
          · injection ho with ho
            show s.m_shaderProgram < (compile (some v) (some f) st ps.ctx).2.1.nextHandle
            rw [h2, ← ho, h1]
            exact Nat.lt_succ_self _
          · show s.m_shaderProgram < (compile (some v) (some f) st ps.ctx).2.1.nextHandle
            rw [h2]
            exact Nat.lt_succ_of_lt (hb j s ho hz)
        · intro j k sj sk hj hk hjk hz
          rcases instAt_set_cases hj with ⟨hej, hoj⟩ | ⟨hnej, hoj⟩ <;>
            rcases instAt_set_cases hk with ⟨hek, hok⟩ | ⟨hnek, hok⟩
          · exact absurd (hej.symm.trans hek) hjk
          · injection hoj with hoj
            have hsj : sj.m_shaderProgram = ps.ctx.nextHandle := by rw [← hoj, h1]
            by_cases hk0 : sk.m_shaderProgram = 0
            · rw [hk0]
              exact hz
            · rw [hsj]
              exact ne_of_gt (hb k sk hok hk0)
          · injection hok with hok
            have hsk : sk.m_shaderProgram = ps.ctx.nextHandle := by rw [← hok, h1]
            rw [hsk]
            exact ne_of_lt (hb j sj hoj hz)
          · exact hd j k sj sk hoj hok hjk hz
  | destroyOp i =>
    rcases hmi : ps.instances[i]? with _ | ⟨_ | st⟩
    · have he : stepOp ps (.destroyOp i) = ps := by simp [stepOp, hmi]
      rw [he]; exact ⟨hb, hd⟩
    · have he : stepOp ps (.destroyOp i) = ps := by simp [stepOp, hmi]
      rw [he]; exact ⟨hb, hd⟩
    · have he : stepOp ps (.destroyOp i) =
          { instances := ps.instances.set i none,
            ctx := glDeleteProgram ps.ctx st.m_shaderProgram } := by
        simp [stepOp, hmi]
      rw [he]
      constructor
      · intro j s hj hz
        rcases instAt_set_cases hj with ⟨_, ho⟩ | ⟨_, ho⟩
        · cases ho
        · show s.m_shaderProgram < (glDeleteProgram ps.ctx st.m_shaderProgram).nextHandle
          rw [glDeleteProgram_nextHandle_eq]
          exact hb j s ho hz
      · intro j k sj sk hj hk hjk hz
        rcases instAt_set_cases hj with ⟨_, ho⟩ | ⟨_, hoj⟩
        · cases ho
        · rcases instAt_set_cases hk with ⟨_, ho⟩ | ⟨_, hok⟩
          · cases ho
          · exact hd j k sj sk hoj hok hjk hz
  | setFloat i name x =>
    rcases hmi : ps.instances[i]? with _ | ⟨_ | st⟩
    · have he : stepOp ps (.setFloat i name x) = ps := by simp [stepOp, hmi]
      rw [he]; exact ⟨hb, hd⟩
    · have he : stepOp ps (.setFloat i name x) = ps := by simp [stepOp, hmi]
      rw [he]; exact ⟨hb, hd⟩
    · have he : stepOp ps (.setFloat i name x) =
          { instances := ps.instances.set i (some (setUniformFloat st ps.ctx name x).1),
            ctx := (setUniformFloat st ps.ctx name x).2 } := by
        simp [stepOp, hmi]
      rw [he]
      exact inv_set_same_handle ps i st _ _ hb hd hmi
        (setUniformImpl_handle st ps.ctx name _)
        (setUniformFloat_nextHandle st ps.ctx name x)
  | setSampler i name tex =>
    rcases hmi : ps.instances[i]? with _ | ⟨_ | st⟩
    · have he : stepOp ps (.setSampler i name tex) = ps := by simp [stepOp, hmi]
      rw [he]; exact ⟨hb, hd⟩
    · have he : stepOp ps (.setSampler i name tex) = ps := by simp [stepOp, hmi]
      rw [he]; exact ⟨hb, hd⟩
    · have he : stepOp ps (.setSampler i name tex) =
          { instances := ps.instances.set i (some (setUniformSampler2D st ps.ctx name tex).1),
            ctx := (setUniformSampler2D st ps.ctx name tex).2 } := by
        simp [stepOp, hmi]
      rw [he]
      exact inv_set_same_handle ps i st _ _ hb hd hmi
        (setSampler_handle st ps.ctx name tex)
        (setSampler_nextHandle st ps.ctx name tex)
  | setCurrent i name =>
    rcases hmi : ps.instances[i]? with _ | ⟨_ | st⟩
    · have he : stepOp ps (.setCurrent i name) = ps := by simp [stepOp, hmi]
      rw [he]; exact ⟨hb, hd⟩
    · have he : stepOp ps (.setCurrent i name) = ps := by simp [stepOp, hmi]
      rw [he]; exact ⟨hb, hd⟩
    · have he : stepOp ps (.setCurrent i name) =
          { instances := ps.instances.set i
              (some (setUniformSampler2DCurrent st ps.ctx name).1),
            ctx := (setUniformSampler2DCurrent st ps.ctx name).2 } := by
        simp [stepOp, hmi]
      rw [he]
      exact inv_set_same_handle ps i st _ _ hb hd hmi
        (setCurrent_handle st ps.ctx name)
        (setCurrent_nextHandle st ps.ctx name)
  | bindSlot oi =>
    cases oi with
    | none =>
      constructor
      · intro j s hj hz
        show s.m_shaderProgram < (Shader.bind none ps.ctx).nextHandle
        rw [bind_nextHandle_eq]
        exact hb j s hj hz
      · exact fun j k sj sk hj hk hjk hz => hd j k sj sk hj hk hjk hz
    | some i =>
      rcases hmi : ps.instances[i]? with _ | ⟨_ | st⟩
      · have he : stepOp ps (.bindSlot (some i)) = ps := by simp [stepOp, hmi]
        rw [he]; exact ⟨hb, hd⟩
      · have he : stepOp ps (.bindSlot (some i)) = ps := by simp [stepOp, hmi]
        rw [he]; exact ⟨hb, hd⟩
      · have he : stepOp ps (.bindSlot (some i)) =
            { ps with ctx := Shader.bind (some st) ps.ctx } := by
          simp [stepOp, hmi]
        rw [he]
        constructor
        · intro j s hj hz
          show s.m_shaderProgram < (Shader.bind (some st) ps.ctx).nextHandle
          rw [bind_nextHandle_eq]
          exact hb j s hj hz
        · exact fun j k sj sk hj hk hjk hz => hd j k sj sk hj hk hjk hz

theorem runOps_preserves (ops : List Op) (ps : ProcessState)
    (hb : HandleBound ps) (hd : HandlesDistinct ps) :
    HandleBound (runOps ops ps) ∧ HandlesDistinct (runOps ops ps) := by
  induction ops generalizing ps with
  | nil => exact ⟨hb, hd⟩
  | cons op rest ih =>
    have h1 := stepOp_preserves ps op hb hd
    exact ih (stepOp ps op) h1.1 h1.2

/-- C9: Shader inherits NonCopyable, so instances cannot be copied; over every
sequence of client operations (create, load, set-uniform, bind, destroy —
there is no copy) starting from a fresh process, no two live instances ever
hold the same non-zero program handle: each driver-side program is owned by
exactly one instance. -/
theorem shader_handles_unique
    (link : Option String → Option String → Option (List (String × Int)))
    (ops : List Op) :
    HandlesDistinct (runOps ops (initialProcess link)) := by
  have hb : HandleBound (initialProcess link) := by
    intro i s hi hz
    simp [InstAt, initialProcess] at hi
  have hd : HandlesDistinct (initialProcess link) := by
    intro i j si sj hi hj hij hz
    simp [InstAt, initialProcess] at hi
  exact (runOps_preserves ops (initialProcess link) hb hd).2

theorem shader_handles_unique_witness :
    InstAt (runOps [Op.create, Op.create, Op.loadMem 0 "V" "F", Op.loadMem 1 "V" "F"]
        (initialProcess testLink)) 0
      { m_shaderProgram := 1, m_currentTexture := -1, m_textures := [], m_params := [] } ∧
    InstAt (runOps [Op.create, Op.create, Op.loadMem 0 "V" "F", Op.loadMem 1 "V" "F"]
        (initialProcess testLink)) 1
      { m_shaderProgram := 2, m_currentTexture := -1, m_textures := [], m_params := [] } ∧
    (0 : Nat) ≠ 1 ∧
    (1 : Nat) ≠ 0 ∧
    (1 : Nat) ≠ 2 :=
  ⟨rfl, rfl, by decide, by decide,
   shader_handles_unique testLink
     [Op.create, Op.create, Op.loadMem 0 "V" "F", Op.loadMem 1 "V" "F"] 0 1
     { m_shaderProgram := 1, m_currentTexture := -1, m_textures := [], m_params := [] }
     { m_shaderProgram := 2, m_currentTexture := -1, m_textures := [], m_params := [] }
     rfl rfl (by decide) (by decide)⟩

end SFMLShader
